import Mathlib

/-!
Verification of the go-bench HTTP load-generation engine.

The development shallowly embeds the two layers of the repository:

* `GoBench` — the concurrent engine in `cmd/gobench/gobench.go`: the
  per-worker `Result` counters with the attempt-classification logic of the
  `client` goroutine body, the count-based termination of the worker loop, the
  `MyConn` throughput-metering connection wrapper over the process-wide
  `readThroughput` / `writeThroughput` counters, and the aggregation
  performed by `printResults`.
* `BenchClient` — the single-client library (package `client`): the
  `Statistic` record, the per-attempt accounting of
  `PerformRequestWithContent`, the `RunForAmount` loop and the
  `RunForDuration` loop with its end-of-run compensation.

Externally determined events (what the network returned for an attempt, how
many bytes an underlying connection call moved, whether it errored) are
passed in as explicit outcome values; everything the Go code computes from
those events is translated directly from the source.
-/

namespace GoBench

/-- Per-worker counters, `Result` of gobench.go (lines 49-54).  The Go
fields are `int64` and are only ever incremented, so they are embedded as
naturals. -/
structure Result where
  requests : Nat
  success : Nat
  networkFailed : Nat
  badFailed : Nat
deriving DecidableEq, Repr

/-- The zero value a fresh `&Result{}` starts from (gobench.go line 328). -/
def Result.empty : Result := ⟨0, 0, 0, 0⟩

/-- What one request attempt produced, as observed by the worker body
(gobench.go lines 268-284): either `configuration.myClient.Do` returned an
error (no usable response), or it returned a response with the given
numeric status code. -/
inductive Outcome where
  | ok (statusCode : Int)
  | netErr
deriving DecidableEq, Repr

/-- One iteration of the inner URL loop of the `client` goroutine
(gobench.go lines 270-284): `result.requests++` unconditionally; on error
`result.networkFailed++`; otherwise status in [200,226] increments
`result.success` and any other status increments `result.badFailed`. -/
def performAttempt (r : Result) (o : Outcome) : Result :=
  let r := { r with requests := r.requests + 1 }
  match o with
  | .netErr => { r with networkFailed := r.networkFailed + 1 }
  | .ok statusCode =>
      if 200 ≤ statusCode ∧ statusCode ≤ 226 then
        { r with success := r.success + 1 }
      else
        { r with badFailed := r.badFailed + 1 }

/-- A sequence of completed attempts folded into the `Result` of one worker. -/
def runAttempts (r : Result) (os : List Outcome) : Result :=
  os.foldl performAttempt r

/-- The accounting invariant of a `Result`: every attempt is classified
into exactly one of the three outcome counters. -/
def Result.balanced (r : Result) : Prop :=
  r.requests = r.success + r.networkFailed + r.badFailed

instance (r : Result) : Decidable r.balanced := by
  unfold Result.balanced; infer_instance

/-- C3: For every attempt that yields a usable response, the worker
increments `success` exactly when the status code lies in [200,226] and
increments `badFailed` for any other status; a transport-level failure
increments `networkFailed`; `requests` is incremented unconditionally in
all three cases. -/
theorem attempt_classification (r : Result) (o : Outcome) :
    (performAttempt r o).requests = r.requests + 1 ∧
    (performAttempt r o).success =
      r.success + (match o with
        | .ok s => if 200 ≤ s ∧ s ≤ 226 then 1 else 0
        | .netErr => 0) ∧
    (performAttempt r o).badFailed =
      r.badFailed + (match o with
        | .ok s => if 200 ≤ s ∧ s ≤ 226 then 0 else 1
        | .netErr => 0) ∧
    (performAttempt r o).networkFailed =
      r.networkFailed + (match o with
        | .ok _ => 0
        | .netErr => 1) := by
  cases o with
  | netErr => simp [performAttempt]
  | ok s =>
      by_cases h : 200 ≤ s ∧ s ≤ 226 <;>
        simp [performAttempt, h]

/-- C4: `requests = success + networkFailed + badFailed` holds after any
sequence of completed attempts and is preserved by every single attempt,
whatever its outcome. -/
theorem requests_balanced (r : Result) (os : List Outcome) (h : r.balanced) :
    (runAttempts r os).balanced ∧ ∀ o, (performAttempt r o).balanced := by
  have step : ∀ (q : Result) (o : Outcome), q.balanced → (performAttempt q o).balanced := by
    intro q o hq
    cases o with
    | netErr => simp [performAttempt, Result.balanced] at hq ⊢; omega
    | ok s =>
        by_cases hs : 200 ≤ s ∧ s ≤ 226 <;>
          · simp [performAttempt, Result.balanced, hs] at hq ⊢; omega
  refine ⟨?_, fun o => step r o h⟩
  induction os generalizing r with
  | nil => simpa [runAttempts] using h
  | cons o os ih =>
      have : runAttempts r (o :: os) = runAttempts (performAttempt r o) os := rfl
      rw [this]
      exact ih _ (step r o h)

/-- C4 witness: the invariant holds concretely for a fresh worker after a
success, a network failure and a bad-status attempt. -/
theorem requests_balanced_witness :
    Result.empty.balanced ∧
    (runAttempts Result.empty [.ok 200, .netErr, .ok 500]).balanced :=
  ⟨by decide, (requests_balanced Result.empty [.ok 200, .netErr, .ok 500] (by decide)).1⟩

/-- The count-based worker loop of the `client` goroutine (gobench.go
lines 243-286) restricted to what drives control flow.  In `ByCount` mode
(`requestsDuration == -1`) the outer condition is
`result.requests < configuration.requestCount`, and it is only re-checked
after the inner `for _, tmpUrl := range configuration.urls` loop has swept
the whole URL set, each sweep incrementing `result.requests` once per URL
regardless of the outcome of the attempt.  `numUrls` is the size of the URL
set; the returned value is the final `requests` counter of the worker, starting the
loop at `r`.  (With an empty URL set the Go loop would spin forever, so the
guard also requires `0 < numUrls`.) -/
def clientByCount (numUrls n r : Nat) : Nat :=
  if h : r < n ∧ 0 < numUrls then clientByCount numUrls n (r + numUrls) else r
termination_by n - r
decreasing_by omega

/-- Total `requests` summed across the pool of `c` workers in `ByCount`
mode: every worker runs the same deterministic count loop from zero
(gobench.go lines 327-332 give each its own fresh `Result`). -/
def totalByCount (c numUrls n : Nat) : Nat :=
  (List.replicate c (clientByCount numUrls n 0)).sum

theorem clientByCount_closed (m : Nat) (hm : 0 < m) :
    ∀ (k n r : Nat), n - r ≤ k → clientByCount m n r = r + m * ((n - r + m - 1) / m) := by
  intro k
  induction k with
  | zero =>
      intro n r hk
      have hnr : ¬ r < n := by omega
      rw [clientByCount, dif_neg (by tauto)]
      have h0 : n - r = 0 := by omega
      rw [h0]
      have hz : (0 + m - 1) / m = 0 := Nat.div_eq_of_lt (by omega)
      rw [hz, Nat.mul_zero, Nat.add_zero]
  | succ k ih =>
      intro n r hk
      by_cases hr : r < n
      · rw [clientByCount, dif_pos ⟨hr, hm⟩]
        rw [ih n (r + m) (by omega)]
        have key : (n - r + m - 1) / m = (n - (r + m) + m - 1) / m + 1 := by
          have h1 : n - r + m - 1 = (n - r - 1) + m := by omega
          rw [h1, Nat.add_div_right _ hm]
          congr 1
          by_cases hc : m ≤ n - r
          · congr 1; omega
          · have e1 : n - r - 1 = n - r - 1 := rfl
            have e2 : n - (r + m) = 0 := by omega
            rw [e2]
            have l1 : (n - r - 1) / m = 0 := Nat.div_eq_of_lt (by omega)
            have l2 : (0 + m - 1) / m = 0 := Nat.div_eq_of_lt (by omega)
            rw [l1, l2]
        rw [key]
        ring
      · rw [clientByCount, dif_neg (by tauto)]
        have h0 : n - r = 0 := by omega
        rw [h0]
        have hz : (0 + m - 1) / m = 0 := Nat.div_eq_of_lt (by omega)
        rw [hz, Nat.mul_zero, Nat.add_zero]

/-- C2 counterexample: with a two-URL configuration, request count n = 1
and concurrency c = 1, the single worker performs a full sweep of the URL
set before re-checking the count, so the total is 2, not n × c = 1. -/
theorem byCount_total_counterexample : totalByCount 1 2 1 ≠ 1 * 1 := by
  have h := clientByCount_closed 2 (by omega) 1 1 0 (by omega)
  simp [totalByCount, h]

/-- C2 (amended): in `ByCount` mode each worker stops at the first
URL-set sweep boundary at which its own `requests` counter has reached n,
having performed numUrls × ⌈n / numUrls⌉ requests; the total across c
workers is c times that, which equals n × c exactly when numUrls divides n
(in particular for a single-URL configuration). -/
theorem byCount_total_requests (m n c : Nat) (hm : 0 < m) (hn : 0 < n) :
    clientByCount m n 0 = m * ((n + m - 1) / m) ∧
    n ≤ clientByCount m n 0 ∧
    clientByCount m n 0 < n + m ∧
    totalByCount c m n = c * (m * ((n + m - 1) / m)) ∧
    (m ∣ n → totalByCount c m n = n * c) := by
  have hclosed := clientByCount_closed m hm n n 0 (by omega)
  simp only [Nat.sub_zero, Nat.zero_add] at hclosed
  have hceil : n ≤ m * ((n + m - 1) / m) ∧ m * ((n + m - 1) / m) < n + m := by
    constructor
    · have h1 : n + m - 1 < m * ((n + m - 1) / m + 1) :=
        Nat.lt_mul_div_succ _ hm
      have h2 : m * ((n + m - 1) / m + 1) = m * ((n + m - 1) / m) + m := by ring
      omega
    · have h1 : m * ((n + m - 1) / m) ≤ n + m - 1 := Nat.mul_div_le _ _
      omega
  have htotal : totalByCount c m n = c * clientByCount m n 0 := by
    simp [totalByCount, List.sum_replicate, smul_eq_mul]
  refine ⟨hclosed, by omega, by omega, by rw [htotal, hclosed], ?_⟩
  intro hdvd
  obtain ⟨q, hq⟩ := hdvd
  have hdiv : (n + m - 1) / m = q := by
    have h1 : n + m - 1 = m * q + (m - 1) := by omega
    rw [h1, Nat.mul_add_div hm]
    have : (m - 1) / m = 0 := Nat.div_eq_of_lt (by omega)
    omega
  rw [htotal, hclosed, hdiv]
  rw [hq]
  ring

/-- C2 witness: with 2 URLs, n = 4 and c = 3, the amended statement at a
concrete configuration: each worker performs 4 requests and, since 2
divides 4, the total is exactly n × c = 12. -/
theorem byCount_total_requests_witness :
    0 < 2 ∧ 0 < 4 ∧
    (clientByCount 2 4 0 = 2 * ((4 + 2 - 1) / 2) ∧
     4 ≤ clientByCount 2 4 0 ∧
     clientByCount 2 4 0 < 4 + 2 ∧
     totalByCount 3 2 4 = 3 * (2 * ((4 + 2 - 1) / 2)) ∧
     (2 ∣ 4 → totalByCount 3 2 4 = 4 * 3)) :=
  ⟨by decide, by decide, byCount_total_requests 2 4 3 (by decide) (by decide)⟩

/-- The process-wide throughput counters `readThroughput` and
`writeThroughput` of gobench.go (lines 60-61), both `int64` and only ever
added to, embedded as naturals. -/
structure Meter where
  readThroughput : Nat
  writeThroughput : Nat
deriving DecidableEq, Repr

/-- Model of `MyConn.Read` (gobench.go lines 64-72): the underlying
`conn.Conn.Read` returned `n` bytes and possibly an error (`errored`);
when the error is nil, `n` is added to `readThroughput`; the pair
`(len, err)` is returned to the caller unchanged. -/
def connRead (m : Meter) (n : Nat) (errored : Bool) : (Nat × Bool) × Meter :=
  ((n, errored),
   if errored then m else { m with readThroughput := m.readThroughput + n })

/-- Model of `MyConn.Write` (gobench.go lines 75-83): symmetric to `connRead`,
adding to `writeThroughput` on a nil error. -/
def connWrite (m : Meter) (n : Nat) (errored : Bool) : (Nat × Bool) × Meter :=
  ((n, errored),
   if errored then m else { m with writeThroughput := m.writeThroughput + n })

/-- One connection-level I/O event, as seen by the `MyConn` wrapper. -/
inductive ConnOp where
  | read (n : Nat) (errored : Bool)
  | write (n : Nat) (errored : Bool)
deriving DecidableEq, Repr

/-- Effect of one I/O event on the process-wide meter. -/
def applyOp (m : Meter) (op : ConnOp) : Meter :=
  match op with
  | .read n e => (connRead m n e).2
  | .write n e => (connWrite m n e).2

/-- C6: a successful read (write) of n bytes adds exactly n to
`readThroughput` (`writeThroughput`); an errored operation changes
neither counter; in every case the `(len, err)` result of the underlying
connection is passed through unaltered. -/
theorem conn_metering (m : Meter) (n : Nat) (e : Bool) :
    (connRead m n e).1 = (n, e) ∧
    (connRead m n e).2.readThroughput =
      (if e then m.readThroughput else m.readThroughput + n) ∧
    (connRead m n e).2.writeThroughput = m.writeThroughput ∧
    (connWrite m n e).1 = (n, e) ∧
    (connWrite m n e).2.writeThroughput =
      (if e then m.writeThroughput else m.writeThroughput + n) ∧
    (connWrite m n e).2.readThroughput = m.readThroughput := by
  cases e <;> simp [connRead, connWrite]

/-- C7: across any sequence of connection I/O events, the two throughput
counters never decrease. -/
theorem meter_monotone (m : Meter) (ops : List ConnOp) :
    m.readThroughput ≤ (ops.foldl applyOp m).readThroughput ∧
    m.writeThroughput ≤ (ops.foldl applyOp m).writeThroughput := by
  induction ops generalizing m with
  | nil => simp
  | cons op ops ih =>
      have step : m.readThroughput ≤ (applyOp m op).readThroughput ∧
          m.writeThroughput ≤ (applyOp m op).writeThroughput := by
        cases op with
        | read n e => cases e <;> simp [applyOp, connRead]
        | write n e => cases e <;> simp [applyOp, connWrite]
      have tail := ih (applyOp m op)
      simp only [List.foldl_cons]
      omega

/-- C10: when the underlying call moves n > 0 bytes but also reports an
error (data delivered together with an error), those n bytes are NOT
counted: the wrapper still hands n to the caller, yet leaves the meter
strictly below the value that would account for the transfer. -/
theorem errored_transfer_uncounted (m : Meter) (n : Nat) (hn : 0 < n) :
    (connRead m n true).1.1 = n ∧
    (connRead m n true).2.readThroughput = m.readThroughput ∧
    (connRead m n true).2.readThroughput < m.readThroughput + n ∧
    (connWrite m n true).1.1 = n ∧
    (connWrite m n true).2.writeThroughput = m.writeThroughput ∧
    (connWrite m n true).2.writeThroughput < m.writeThroughput + n := by
  simp [connRead, connWrite]
  omega

/-- C10 witness: a read of 5 bytes arriving together with an error leaves
a zeroed meter unchanged. -/
theorem errored_transfer_uncounted_witness :
    0 < 5 ∧
    ((connRead ⟨0, 0⟩ 5 true).1.1 = 5 ∧
     (connRead ⟨0, 0⟩ 5 true).2.readThroughput = 0 ∧
     (connRead ⟨0, 0⟩ 5 true).2.readThroughput < 0 + 5 ∧
     (connWrite ⟨0, 0⟩ 5 true).1.1 = 5 ∧
     (connWrite ⟨0, 0⟩ 5 true).2.writeThroughput = 0 ∧
     (connWrite ⟨0, 0⟩ 5 true).2.writeThroughput < 0 + 5) :=
  ⟨by decide, errored_transfer_uncounted ⟨0, 0⟩ 5 (by decide)⟩

/-- The record of values computed and reported by `printResults`
(gobench.go lines 100-128). -/
structure Statistics where
  requests : Nat
  success : Nat
  networkFailed : Nat
  badFailed : Nat
  elapsedSeconds : Nat
  successRatePerSecond : Nat
  readThroughputPerSecond : Nat
  writeThroughputPerSecond : Nat
deriving DecidableEq, Repr

/-- Model of `printResults` (gobench.go lines 100-128): accumulate the four
counters over all worker `Result`s exactly as the Go range loop does;
`elapsed` is the truncated wall-clock seconds since start, replaced by 1
when it is 0; the three rates are integer divisions by `elapsed`.
`elapsedRaw` is the non-negative `int64(time.Since(startTime).Seconds())`
and the meter is the snapshot of the two global counters. -/
def printResults (results : List Result) (elapsedRaw : Nat) (m : Meter) : Statistics :=
  let requests := results.foldl (fun acc r => acc + r.requests) 0
  let success := results.foldl (fun acc r => acc + r.success) 0
  let networkFailed := results.foldl (fun acc r => acc + r.networkFailed) 0
  let badFailed := results.foldl (fun acc r => acc + r.badFailed) 0
  let elapsed := if elapsedRaw = 0 then 1 else elapsedRaw
  { requests := requests
    success := success
    networkFailed := networkFailed
    badFailed := badFailed
    elapsedSeconds := elapsed
    successRatePerSecond := success / elapsed
    readThroughputPerSecond := m.readThroughput / elapsed
    writeThroughputPerSecond := m.writeThroughput / elapsed }

theorem foldl_add_eq_sum (f : Result → Nat) (results : List Result) (acc : Nat) :
    results.foldl (fun a r => a + f r) acc = acc + (results.map f).sum := by
  induction results generalizing acc with
  | nil => simp
  | cons r rs ih => simp [ih]; omega

/-- C5: the aggregation computes component-wise sums of the four counters
over all Results, `elapsedSeconds = max 1 elapsedRaw`, and the three
reported rates are the integer divisions of `success`, `readThroughput`
and `writeThroughput` by `elapsedSeconds`, for every list of Results and
every non-negative elapsed time. -/
theorem printResults_spec (results : List Result) (elapsedRaw : Nat) (m : Meter) :
    (printResults results elapsedRaw m).requests = (results.map Result.requests).sum ∧
    (printResults results elapsedRaw m).success = (results.map Result.success).sum ∧
    (printResults results elapsedRaw m).networkFailed = (results.map Result.networkFailed).sum ∧
    (printResults results elapsedRaw m).badFailed = (results.map Result.badFailed).sum ∧
    (printResults results elapsedRaw m).elapsedSeconds = max 1 elapsedRaw ∧
    (printResults results elapsedRaw m).successRatePerSecond =
      (results.map Result.success).sum / max 1 elapsedRaw ∧
    (printResults results elapsedRaw m).readThroughputPerSecond =
      m.readThroughput / max 1 elapsedRaw ∧
    (printResults results elapsedRaw m).writeThroughputPerSecond =
      m.writeThroughput / max 1 elapsedRaw := by
  have hmax : (if elapsedRaw = 0 then 1 else elapsedRaw) = max 1 elapsedRaw := by
    by_cases h : elapsedRaw = 0 <;> simp [h] <;> omega
  simp [printResults, foldl_add_eq_sum, hmax]

end GoBench

namespace BenchClient

/-- The `Statistic` record of the library client (client.go lines
207-222).  The Go counters are `int` / `int64` and, except for the single
guarded decrement in `RunForDuration`, only ever incremented; they are
embedded as naturals. -/
structure Statistic where
  ReadThroughput : Nat
  WriteThroughput : Nat
  RequestCount : Nat
  SuccessCount : Nat
  FailureCount : Nat
  NetworkFailedCount : Nat
  IOFailedCount : Nat
deriving DecidableEq, Repr

/-- The zero value a fresh `Client{...}` starts from. -/
def Statistic.empty : Statistic := ⟨0, 0, 0, 0, 0, 0, 0⟩

/-- What one library request attempt produced: `HTTPClient.Do` returned a
non-nil error (no usable response), or a response with the given status
code, a response body of `bodyLen` bytes as returned by `io.ReadAll`, and
a flag telling whether that read itself errored. -/
inductive LibOutcome where
  | netErr
  | resp (statusCode : Int) (bodyLen : Nat) (readErrored : Bool)
deriving DecidableEq, Repr

/-- The statistic-writing part of `PerformRequestWithContent` (client.go
lines 343-364): `RequestCount++` before the request; on a non-nil `Do`
error `NetworkFailedCount++` and return; otherwise status in [200,299]
increments `SuccessCount`, any other status increments `FailureCount`, a
failing body read increments `IOFailedCount`, and the body length and the
post-body length are added to the two throughput counters.
`postBodyLen` is `len(c.Request.PostBody)`. -/
def performAttempt (postBodyLen : Nat) (s : Statistic) (o : LibOutcome) : Statistic :=
  let s := { s with RequestCount := s.RequestCount + 1 }
  match o with
  | .netErr => { s with NetworkFailedCount := s.NetworkFailedCount + 1 }
  | .resp statusCode bodyLen readErrored =>
      let s :=
        if 200 ≤ statusCode ∧ statusCode ≤ 299 then
          { s with SuccessCount := s.SuccessCount + 1 }
        else
          { s with FailureCount := s.FailureCount + 1 }
      let s :=
        if readErrored then { s with IOFailedCount := s.IOFailedCount + 1 } else s
      { s with
        ReadThroughput := s.ReadThroughput + bodyLen
        WriteThroughput := s.WriteThroughput + postBodyLen }

/-- Model of `RunForAmount` (client.go lines 304-308): perform the request once per
loop iteration; a run of count n is a list of n attempt outcomes. -/
def RunForAmount (postBodyLen : Nat) (outcomes : List LibOutcome) : Statistic :=
  outcomes.foldl (performAttempt postBodyLen) Statistic.empty

/-- An attempt outcome of a duration run, tagged with whether a network
failure was caused by the context-timeout cutoff interrupting the last
in-flight request.  The client code cannot observe the tag; it exists
only so that the attribution condition of the specification can be stated. -/
def cutoffFailures (outcomes : List (LibOutcome × Bool)) : Nat :=
  (outcomes.filter fun p =>
    (match p.1 with | .netErr => true | .resp _ _ _ => false) && p.2).length

/-- The raw statistic accumulated by the `RunForDuration` loop body
(client.go lines 292-294) before any compensation. -/
def rawStatistic (postBodyLen : Nat) (outcomes : List (LibOutcome × Bool)) : Statistic :=
  outcomes.foldl (fun s p => performAttempt postBodyLen s p.1) Statistic.empty

/-- The end-of-run compensation of `RunForDuration` (client.go lines
297-300): when the accumulated `NetworkFailedCount` is exactly 1, both
`RequestCount` and `NetworkFailedCount` are decremented; otherwise the
statistic is reported unchanged. -/
def compensate (s : Statistic) : Statistic :=
  if s.NetworkFailedCount = 1 then
    { s with
      RequestCount := s.RequestCount - 1
      NetworkFailedCount := s.NetworkFailedCount - 1 }
  else s

/-- Model of `RunForDuration` (client.go lines 288-301): loop until the deadline,
then compensate. -/
def RunForDuration (postBodyLen : Nat) (outcomes : List (LibOutcome × Bool)) : Statistic :=
  compensate (rawStatistic postBodyLen outcomes)

/-- C1 counterexample: a duration run whose attempts were one genuine
network failure followed by one network failure attributable to the
cutoff.  The cutoff-attributable count is exactly 1, yet the reported
totals are the raw totals (2 requests, 2 network failures) unchanged, not
the raw totals minus one as the claim requires. -/
theorem duration_compensation_counterexample :
    cutoffFailures [(LibOutcome.netErr, false), (LibOutcome.netErr, true)] = 1 ∧
    (rawStatistic 0 [(LibOutcome.netErr, false), (LibOutcome.netErr, true)]).RequestCount = 2 ∧
    (rawStatistic 0 [(LibOutcome.netErr, false), (LibOutcome.netErr, true)]).NetworkFailedCount = 2 ∧
    (RunForDuration 0 [(LibOutcome.netErr, false), (LibOutcome.netErr, true)]).RequestCount = 2 ∧
    (RunForDuration 0 [(LibOutcome.netErr, false), (LibOutcome.netErr, true)]).NetworkFailedCount = 2 ∧
    ¬ ((RunForDuration 0 [(LibOutcome.netErr, false), (LibOutcome.netErr, true)]).RequestCount =
        (rawStatistic 0 [(LibOutcome.netErr, false), (LibOutcome.netErr, true)]).RequestCount - 1) := by
  decide

/-- C1 (amended): the compensation is keyed on the TOTAL accumulated
`NetworkFailedCount`, not on the count attributable to the cutoff (which
the code cannot observe): if the raw total is exactly 1 the reported
totals are the raw totals with one subtracted from both `RequestCount`
and `NetworkFailedCount`; for any other raw total the reported statistic
is the raw statistic unchanged; all other fields are never touched. -/
theorem duration_compensation (postBodyLen : Nat) (outcomes : List (LibOutcome × Bool)) :
    (RunForDuration postBodyLen outcomes).RequestCount =
      (if (rawStatistic postBodyLen outcomes).NetworkFailedCount = 1 then
        (rawStatistic postBodyLen outcomes).RequestCount - 1
       else (rawStatistic postBodyLen outcomes).RequestCount) ∧
    (RunForDuration postBodyLen outcomes).NetworkFailedCount =
      (if (rawStatistic postBodyLen outcomes).NetworkFailedCount = 1 then 0
       else (rawStatistic postBodyLen outcomes).NetworkFailedCount) ∧
    (RunForDuration postBodyLen outcomes).SuccessCount =
      (rawStatistic postBodyLen outcomes).SuccessCount ∧
    (RunForDuration postBodyLen outcomes).FailureCount =
      (rawStatistic postBodyLen outcomes).FailureCount ∧
    (RunForDuration postBodyLen outcomes).IOFailedCount =
      (rawStatistic postBodyLen outcomes).IOFailedCount ∧
    (RunForDuration postBodyLen outcomes).ReadThroughput =
      (rawStatistic postBodyLen outcomes).ReadThroughput ∧
    (RunForDuration postBodyLen outcomes).WriteThroughput =
      (rawStatistic postBodyLen outcomes).WriteThroughput := by
  unfold RunForDuration compensate
  by_cases h : (rawStatistic postBodyLen outcomes).NetworkFailedCount = 1 <;>
    simp [h]

/-- C8: with `len(PostBody) = 3` and request count 1, any attempt that
yields a usable response (whatever its status, body length or body-read
outcome) leaves `WriteThroughput` at exactly 3 after the run. -/
theorem writeThroughput_postBody (statusCode : Int) (bodyLen : Nat) (readErrored : Bool) :
    (RunForAmount 3 [LibOutcome.resp statusCode bodyLen readErrored]).WriteThroughput = 3 := by
  unfold RunForAmount performAttempt
  by_cases h : 200 ≤ statusCode ∧ statusCode ≤ 299 <;>
    cases readErrored <;> simp [h, Statistic.empty]

/-- Outcome of the `http.NewRequestWithContext` construction at the top of
`PerformRequestWithContent` (client.go lines 318-328): either the request
was built, or construction returned a non-nil error (a malformed target
URL), in which case the function panics. -/
inductive BuildResult where
  | built
  | buildErr
deriving DecidableEq, Repr

/-- Model of `PerformRequestWithContent` (client.go lines 316-364) with the
construction step made explicit: a construction error reaches
`panic("Could not create http request")`, modelled as `none` — no
statistic is returned and no counter is classified; otherwise the attempt
proceeds and updates the statistic. -/
def PerformRequestWithContent (postBodyLen : Nat) (build : BuildResult)
    (o : LibOutcome) (s : Statistic) : Option Statistic :=
  match build with
  | .buildErr => none
  | .built => some (performAttempt postBodyLen s o)

/-- C9: if request construction fails, `PerformRequestWithContent` panics
(returns no statistic and classifies the attempt into no counter); when
construction succeeds — the precondition a well-formed URL guarantees —
the panic branch is not taken and the attempt is accounted normally. -/
theorem construction_panic (postBodyLen : Nat) (o : LibOutcome) (s : Statistic) :
    PerformRequestWithContent postBodyLen BuildResult.buildErr o s = none ∧
    PerformRequestWithContent postBodyLen BuildResult.built o s =
      some (performAttempt postBodyLen s o) := by
  exact ⟨rfl, rfl⟩

end BenchClient
